import Mathlib

/-!
Shallow embedding of `src/rainbow/cloudformation.py` (the rainbow CloudFormation
client core): status classification, the event-tailing loop, template parameter
resolution, and the thin stack-gateway operations, together with theorems about
them.

Python strings are modelled as Lean `String`; Python lists as Lean `List`;
fallible calls as `Except`; machine-independent values (template parameters)
as a small `PyValue` universe.
-/

namespace Rainbow

/-- Python's `str.endswith(t)` on `s`: `t` is a suffix of `s`. -/
def strEndsWith (s t : String) : Bool :=
  t.data.isSuffixOf s.data

/-- The three-way classification the tailing loop applies to a raw stack
status string (source lines 225-231): the terminal taxonomy. -/
inductive StatusClass
  | inProgress
  | success
  | failure
  deriving DecidableEq, Repr

/-- The terminal-status conditions at source lines 225-231, as a function:
`stack['StackStatus'].endswith('_FAILED') or stack['StackStatus'] in
('ROLLBACK_COMPLETE', 'UPDATE_ROLLBACK_COMPLETE')` classifies failure, an
`endswith('_COMPLETE')` that is not a failure classifies success, and anything
else continues the loop. -/
def classifyStatus (s : String) : StatusClass :=
  if strEndsWith s "_FAILED" || s == "ROLLBACK_COMPLETE" || s == "UPDATE_ROLLBACK_COMPLETE" then
    StatusClass.failure
  else if strEndsWith s "_COMPLETE" then
    StatusClass.success
  else
    StatusClass.inProgress

theorem not_failed_of_complete {s : String} (h : strEndsWith s "_COMPLETE" = true) :
    strEndsWith s "_FAILED" = false := by
  by_contra hf
  rw [Bool.not_eq_false] at hf
  rw [strEndsWith] at h hf
  rw [List.isSuffixOf_iff_suffix] at h hf
  rcases List.suffix_or_suffix_of_suffix h hf with h1 | h1
  · exact absurd (List.isSuffixOf_iff_suffix.mpr h1) (by decide)
  · exact absurd (List.isSuffixOf_iff_suffix.mpr h1) (by decide)

theorem rollback_complete_endsWith :
    strEndsWith "ROLLBACK_COMPLETE" "_COMPLETE" = true ∧
    strEndsWith "UPDATE_ROLLBACK_COMPLETE" "_COMPLETE" = true := by
  decide

/-! ## Template parameter resolution (`resolve_template_parameters`, lines 47-71) -/

/-- A scalar configuration value: a Python string or integer. -/
inductive PyScalar
  | str (s : String)
  | int (n : Int)
  deriving DecidableEq, Repr

/-- A Python value as it occurs in a template parameter default or a
datasource lookup result: per the collaborator's interface contract, a scalar
or an ordered sequence of scalars.  In Python 2 exactly the list has an
`__iter__` attribute (a `str` does not). -/
inductive PyValue
  | scalar (v : PyScalar)
  | list (xs : List PyScalar)
  deriving DecidableEq, Repr

/-- Python 2 `str` of a scalar: identity on strings, decimal form of
integers. -/
def pyScalarStr : PyScalar → String
  | PyScalar.str s => s
  | PyScalar.int n => toString n

/-- Python 2 `repr` of a scalar (the element form used inside `str` of a
list); string escaping is not modelled (the development only evaluates it on
quote-free strings). -/
def pyScalarRepr : PyScalar → String
  | PyScalar.str s => "'" ++ s ++ "'"
  | PyScalar.int n => toString n

/-- Python 2 `str` of a value: identity on strings, decimal form of integers,
bracketed repr of the elements for lists. -/
def pyStr : PyValue → String
  | PyValue.scalar v => pyScalarStr v
  | PyValue.list xs => "[" ++ String.intercalate ", " (xs.map pyScalarRepr) ++ "]"

/-- Python 2 `hasattr(v, '__iter__')` over the modelled value universe:
true exactly for lists (Python 2 `str` has no `__iter__`). -/
def hasIterAttr : PyValue → Bool
  | PyValue.list _ => true
  | PyValue.scalar _ => false

/-- `','.join(map(str, v))` for an iterable value (source line 67). -/
def pyJoinComma : PyValue → String
  | PyValue.list xs => String.intercalate "," (xs.map pyScalarStr)
  | v => pyStr v

/-- A template parameter definition: the `'Default'` key of the definition
dict, when present. -/
structure ParameterDefinition where
  Default : Option PyValue

/-- The error raised by the datasource collaborator when a key is absent at
every level of its lookup chain. -/
structure ParameterResolutionError where
  message : String
  deriving DecidableEq, Repr

/-- Modelled from the spec: the parameter-source collaborator
(`DataSourceCollection`, not under `src/`) exposes membership
(`parameter in datasource_collection`) and a recursive lookup
`get_parameter_recursive(key)` searching a chain of nested scopes and raising
`ParameterResolutionError` when the key is absent at every level. -/
structure DataSourceCollection where
  contains : String → Bool
  get_parameter_recursive : String → Except ParameterResolutionError PyValue

/-- `Cloudformation.resolve_template_parameters` (source lines 59-71), over
the template's parameter definitions in iteration order.  A raised
`ParameterResolutionError` from the lookup propagates, aborting the loop. -/
def resolve_template_parameters (template_parameters : List (String × ParameterDefinition))
    (datasource_collection : DataSourceCollection) :
    Except ParameterResolutionError (List (String × String)) :=
  match template_parameters with
  | [] => Except.ok []
  | (parameter, parameter_definition) :: rest =>
    let step : Except ParameterResolutionError PyValue :=
      match parameter_definition.Default, datasource_collection.contains parameter with
      | some default_value, false => Except.ok default_value
      | _, _ =>
        match datasource_collection.get_parameter_recursive parameter with
        | Except.error e => Except.error e
        | Except.ok parameter_value =>
          Except.ok (if hasIterAttr parameter_value then
                       PyValue.scalar (PyScalar.str (pyJoinComma parameter_value))
                     else
                       parameter_value)
    match step with
    | Except.error e => Except.error e
    | Except.ok parameter_value =>
      match resolve_template_parameters rest datasource_collection with
      | Except.error e => Except.error e
      | Except.ok parameters =>
        Except.ok ((pyStr (PyValue.scalar (PyScalar.str parameter)), pyStr parameter_value) :: parameters)

/-- The per-parameter resolution rule in the spec's words: use the declared
default iff the definition has one AND the source has no explicit override;
otherwise look the key up recursively, flattening a sequence-valued result to
a comma-separated string of its elements' string forms; stringify key and
final value. -/
def resolveOneSpec (ds : DataSourceCollection) (k : String) (pd : ParameterDefinition) :
    Except ParameterResolutionError (String × String) :=
  if pd.Default.isSome ∧ ds.contains k = false then
    Except.ok (pyStr (PyValue.scalar (PyScalar.str k)), pyStr (pd.Default.getD (PyValue.scalar (PyScalar.str ""))))
  else
    match ds.get_parameter_recursive k with
    | Except.error e => Except.error e
    | Except.ok v =>
      Except.ok (pyStr (PyValue.scalar (PyScalar.str k)),
                 pyStr (if hasIterAttr v then PyValue.scalar (PyScalar.str (pyJoinComma v)) else v))

/-- The whole-template resolution in the spec's words: resolve each
definition by `resolveOneSpec`, in order, stopping at the first failure. -/
def resolveParamsSpec (ds : DataSourceCollection) :
    List (String × ParameterDefinition) → Except ParameterResolutionError (List (String × String))
  | [] => Except.ok []
  | p :: rest =>
    match resolveOneSpec ds p.1 p.2, resolveParamsSpec ds rest with
    | Except.error e, _ => Except.error e
    | Except.ok _, Except.error e => Except.error e
    | Except.ok kv, Except.ok rest' => Except.ok (kv :: rest')

/-! ## The event tailer (`tail_stack_events` / `_tail_stack_events`, lines 171-233) -/

/-- A stack event record as returned by the backend (the fields the yielded
dictionary reads via `event.get(...)`; `get` on an absent key gives `None`,
modelled by `Option`). -/
structure StackEvent where
  ResourceType : String
  LogicalResourceId : String
  PhysicalResourceId : Option String
  ResourceStatus : String
  ResourceStatusReason : Option String
  Timestamp : Nat
  deriving DecidableEq, Repr

/-- One item of the tailing sequence: a progress-event dictionary, a
`StackFailStatus` marker, or a `StackSuccessStatus` marker (each marker
carries the raw status string). -/
inductive TailItem
  | event (e : StackEvent)
  | fail (status : String)
  | success (status : String)
  deriving DecidableEq, Repr

/-- An exception escaping the tailing loop: either a raw backend
`botocore.exceptions.ClientError` or a wrapped `CloudformationException`. -/
inductive PyError
  | clientError (message : String)
  | cloudformationException (message : String)
  deriving DecidableEq, Repr

/-- Whether an escaped exception is the repository's own
`CloudformationException` (the spec's `ProvisioningError`). -/
def isCFException : PyError → Bool
  | PyError.cloudformationException _ => true
  | PyError.clientError _ => false

/-- `Cloudformation.describe_stack_events` (lines 137-155): reads the full
event list; a backend `ClientError` is caught and re-raised as
`CloudformationException(ex.message)`.  The backend read is modelled by its
outcome: the number of events currently visible, or an error message. -/
def describe_stack_events (backend_read : Except String Nat) : Except PyError Nat :=
  match backend_read with
  | Except.error msg => Except.error (PyError.cloudformationException msg)
  | Except.ok n => Except.ok n

/-- One poll cycle's two backend reads, by their outcomes:
`describe_stacks` yields the raw stack status string (or a backend error
message), the events read yields the count of events currently visible in the
append-only history (or a backend error message). -/
structure PollResult where
  describe_stacks : Except String String
  events_read : Except String Nat
  deriving Repr

/-- The event list a poll observes: the backend returns the first `n` events
of the append-only chronological history, newest first. -/
def stack_events_view (hist : List StackEvent) (n : Nat) : List StackEvent :=
  (hist.take n).reverse

/-- The yielded dictionary for one event (lines 216-221). -/
def eventItem (e : StackEvent) : TailItem := TailItem.event e

/-- Lines 213-221: when the event count exceeds the cursor, the new slice
`stack_events[:-previous_stack_events or None]` is emitted in reversed
(oldest-first) order; otherwise nothing is emitted. -/
def tailEmit (hist : List StackEvent) (prev n : Nat) : List TailItem :=
  if (stack_events_view hist n).length > prev then
    (((stack_events_view hist n).take ((stack_events_view hist n).length - prev)).reverse).map
      eventItem
  else
    []

/-- Line 223: the cursor advances to the new event count exactly when new
events were emitted. -/
def nextCursor (hist : List StackEvent) (prev n : Nat) : Nat :=
  if (stack_events_view hist n).length > prev then (stack_events_view hist n).length else prev

/-- `Cloudformation._tail_stack_events` (lines 202-233) over a finite trace of
poll outcomes, with `prev` the cursor (`previous_stack_events`).  Per cycle:
the `describe_stacks` read (line 210, not wrapped — a backend error escapes as
the raw `ClientError`), the events read (line 211, wrapped by
`describe_stack_events`), emission of the new slice, then the terminal-status
check; on a non-terminal status the loop repeats with the advanced cursor.
Returns the yielded items and the exception that ended the run, if any. -/
def tailRunE (hist : List StackEvent) (prev : Nat) :
    List PollResult → List TailItem × Option PyError
  | [] => ([], none)
  | poll :: rest =>
    match poll.describe_stacks with
    | Except.error msg => ([], some (PyError.clientError msg))
    | Except.ok stackStatus =>
      match describe_stack_events poll.events_read with
      | Except.error e => ([], some e)
      | Except.ok n =>
        match classifyStatus stackStatus with
        | StatusClass.failure =>
          (tailEmit hist prev n ++ [TailItem.fail stackStatus], none)
        | StatusClass.success =>
          (tailEmit hist prev n ++ [TailItem.success stackStatus], none)
        | StatusClass.inProgress =>
          let r := tailRunE hist (nextCursor hist prev n) rest
          (tailEmit hist prev n ++ r.1, r.2)

/-- A poll cycle in which both backend reads succeed. -/
def okPoll (p : String × Nat) : PollResult :=
  { describe_stacks := Except.ok p.1, events_read := Except.ok p.2 }

/-- The items yielded by `_tail_stack_events` over a trace of successful
polls, each given by its observed status string and event count. -/
def tailRun (hist : List StackEvent) (prev : Nat) (polls : List (String × Nat)) : List TailItem :=
  (tailRunE hist prev (polls.map okPoll)).1

/-- The successive values of `previous_stack_events` after each executed poll
cycle of a successful-poll trace (the run stops after a terminal status). -/
def tailCursors (hist : List StackEvent) (prev : Nat) : List (String × Nat) → List Nat
  | [] => []
  | (s, n) :: rest =>
    match classifyStatus s with
    | StatusClass.inProgress =>
      nextCursor hist prev n :: tailCursors hist (nextCursor hist prev n) rest
    | _ => [nextCursor hist prev n]

/-- `Cloudformation.tail_stack_events` (lines 195-200): the starting cursor
handed to `_tail_stack_events`, from the current event count and the optional
`initial_entry` argument. -/
def tail_stack_events (current_event_count : Nat) (initial_entry : Option Int) : Int :=
  match initial_entry with
  | none => (current_event_count : Int)
  | some i => if i < 0 then (current_event_count : Int) + i else i

/-! ## `update_stack` (lines 93-117) and `stack_exists` (lines 73-91) -/

/-- The repository's `CloudformationException` (the spec's
`ProvisioningError`). -/
structure CloudformationException where
  message : String
  deriving DecidableEq, Repr

/-- `Cloudformation.update_stack` (lines 93-117), by the backend call's
outcome (`ClientError` message or acceptance): the one message
`'No updates are to be performed.'` becomes the benign result `False`, any
other rejection is re-raised as `CloudformationException`, acceptance returns
`True`. -/
def update_stack (backend_call : Except String Unit) : Except CloudformationException Bool :=
  match backend_call with
  | Except.error msg =>
    if msg = "No updates are to be performed." then
      Except.ok false
    else
      Except.error { message := msg }
  | Except.ok _ => Except.ok true

/-- `Cloudformation.VALID_STACK_STATUSES` (lines 26-30). -/
def VALID_STACK_STATUSES : List String :=
  ["CREATE_IN_PROGRESS", "CREATE_FAILED", "CREATE_COMPLETE", "ROLLBACK_IN_PROGRESS",
   "ROLLBACK_FAILED", "ROLLBACK_COMPLETE", "DELETE_IN_PROGRESS", "DELETE_FAILED",
   "DELETE_COMPLETE", "UPDATE_IN_PROGRESS", "UPDATE_COMPLETE_CLEANUP_IN_PROGRESS",
   "UPDATE_COMPLETE", "UPDATE_ROLLBACK_IN_PROGRESS", "UPDATE_ROLLBACK_FAILED",
   "UPDATE_ROLLBACK_COMPLETE_CLEANUP_IN_PROGRESS", "UPDATE_ROLLBACK_COMPLETE"]

/-- A stack summary as returned by the backend's list-stacks operation. -/
structure StackSummary where
  StackName : String
  StackStatus : String
  deriving DecidableEq, Repr

/-- Modelled from the spec: the external list-stacks read (a collaborator
operation) returns the summaries of the stacks whose status is in the given
`StackStatusFilter`. -/
def list_stacks (backend : List StackSummary) (statusFilter : List String) : List StackSummary :=
  backend.filter (fun st => statusFilter.contains st.StackStatus)

/-- `Cloudformation.stack_exists` (lines 73-91): list the stacks whose status
is any valid status except `DELETE_COMPLETE`, and test membership of `name`
among their names. -/
def stack_exists (backend : List StackSummary) (name : String) : Bool :=
  let statuses := VALID_STACK_STATUSES.filter (fun status => status != "DELETE_COMPLETE")
  let stackNames := (list_stacks backend statuses).map (fun stack => stack.StackName)
  stackNames.contains name

/-! ## Lemmas about the status classification -/

/-- The classification's Bool conditions, as propositional if-conditions. -/
theorem classifyStatus_eq (s : String) :
    classifyStatus s =
      if strEndsWith s "_FAILED" = true ∨ s = "ROLLBACK_COMPLETE" ∨ s = "UPDATE_ROLLBACK_COMPLETE"
      then StatusClass.failure
      else if strEndsWith s "_COMPLETE" = true then StatusClass.success
      else StatusClass.inProgress := by
  unfold classifyStatus
  by_cases h : strEndsWith s "_FAILED" = true ∨ s = "ROLLBACK_COMPLETE" ∨
      s = "UPDATE_ROLLBACK_COMPLETE"
  · rw [if_pos h]
    have hb : (strEndsWith s "_FAILED" || s == "ROLLBACK_COMPLETE" ||
        s == "UPDATE_ROLLBACK_COMPLETE") = true := by
      rcases h with h | h | h <;> simp [h]
    rw [if_pos hb]
  · rw [if_neg h]
    push_neg at h
    have hb : (strEndsWith s "_FAILED" || s == "ROLLBACK_COMPLETE" ||
        s == "UPDATE_ROLLBACK_COMPLETE") = false := by
      simp only [Bool.or_eq_false_iff, beq_eq_false_iff_ne]
      exact ⟨⟨Bool.not_eq_true _ ▸ h.1, h.2.1⟩, h.2.2⟩
    rw [hb]
    simp

theorem classify_failure_iff (s : String) :
    classifyStatus s = StatusClass.failure ↔
      (strEndsWith s "_FAILED" = true ∨ s = "ROLLBACK_COMPLETE" ∨ s = "UPDATE_ROLLBACK_COMPLETE") := by
  rw [classifyStatus_eq]
  split_ifs with hA hB <;> simp [hA]

theorem classify_success_iff (s : String) :
    classifyStatus s = StatusClass.success ↔
      (strEndsWith s "_COMPLETE" = true ∧ s ≠ "ROLLBACK_COMPLETE" ∧ s ≠ "UPDATE_ROLLBACK_COMPLETE") := by
  rw [classifyStatus_eq]
  split_ifs with hA hB
  · constructor
    · intro hcls; exact absurd hcls (by decide)
    · rintro ⟨hC, he1, he2⟩
      rcases hA with h | h | h
      · rw [not_failed_of_complete hC] at h; exact absurd h (by decide)
      · exact absurd h he1
      · exact absurd h he2
  · push_neg at hA
    exact ⟨fun _ => ⟨hB, hA.2.1, hA.2.2⟩, fun _ => rfl⟩
  · constructor
    · intro hcls; exact absurd hcls (by decide)
    · rintro ⟨hC, _, _⟩; exact absurd hC hB

theorem classify_inProgress_iff (s : String) :
    classifyStatus s = StatusClass.inProgress ↔
      (strEndsWith s "_FAILED" = false ∧ strEndsWith s "_COMPLETE" = false) := by
  rw [classifyStatus_eq]
  split_ifs with hA hB
  · constructor
    · intro hcls; exact absurd hcls (by decide)
    · rintro ⟨hFf, hCf⟩
      rcases hA with h | h | h
      · rw [hFf] at h; exact absurd h (by decide)
      · subst h; exact absurd hCf (by decide)
      · subst h; exact absurd hCf (by decide)
  · constructor
    · intro hcls; exact absurd hcls (by decide)
    · rintro ⟨_, hCf⟩; rw [hCf] at hB; exact absurd hB (by decide)
  · push_neg at hA
    refine ⟨fun _ => ⟨Bool.not_eq_true _ ▸ hA.1, Bool.not_eq_true _ ▸ hB⟩, fun _ => rfl⟩

/-- One successful poll cycle of the loop, by the status classification. -/
theorem tailRunE_cons_ok (hist : List StackEvent) (prev : Nat) (s : String) (n : Nat)
    (rest : List PollResult) :
    tailRunE hist prev (okPoll (s, n) :: rest) =
      match classifyStatus s with
      | StatusClass.failure => (tailEmit hist prev n ++ [TailItem.fail s], none)
      | StatusClass.success => (tailEmit hist prev n ++ [TailItem.success s], none)
      | StatusClass.inProgress =>
        (tailEmit hist prev n ++ (tailRunE hist (nextCursor hist prev n) rest).1,
         (tailRunE hist (nextCursor hist prev n) rest).2) := by
  rfl

/-- A non-terminal status continues the loop with the advanced cursor. -/
theorem tailRun_cons_inProgress (hist : List StackEvent) (prev : Nat) (s : String) (n : Nat)
    (rest : List (String × Nat)) (h : classifyStatus s = StatusClass.inProgress) :
    tailRun hist prev ((s, n) :: rest) =
      tailEmit hist prev n ++ tailRun hist (nextCursor hist prev n) rest := by
  simp only [tailRun, List.map_cons, tailRunE_cons_ok, h]

/-- C2: the tailer's terminal classification yields Failure iff the status
ends with `_FAILED` or equals `ROLLBACK_COMPLETE` or `UPDATE_ROLLBACK_COMPLETE`;
Success iff it ends with `_COMPLETE` and is not one of those two strings;
anything else (every `_IN_PROGRESS` status and any unrecognized string) is
InProgress, and an InProgress status continues the poll loop rather than
erroring. -/
theorem tailer_status_classification (s : String) :
    (classifyStatus s = StatusClass.failure ↔
      (strEndsWith s "_FAILED" = true ∨ s = "ROLLBACK_COMPLETE" ∨ s = "UPDATE_ROLLBACK_COMPLETE")) ∧
    (classifyStatus s = StatusClass.success ↔
      (strEndsWith s "_COMPLETE" = true ∧ s ≠ "ROLLBACK_COMPLETE" ∧ s ≠ "UPDATE_ROLLBACK_COMPLETE")) ∧
    (classifyStatus s = StatusClass.inProgress ↔
      (strEndsWith s "_FAILED" = false ∧ strEndsWith s "_COMPLETE" = false)) ∧
    (∀ (hist : List StackEvent) (prev n : Nat) (rest : List (String × Nat)),
      classifyStatus s = StatusClass.inProgress →
        tailRun hist prev ((s, n) :: rest) =
          tailEmit hist prev n ++ tailRun hist (nextCursor hist prev n) rest) :=
  ⟨classify_failure_iff s, classify_success_iff s, classify_inProgress_iff s,
   fun hist prev n rest h => tailRun_cons_inProgress hist prev s n rest h⟩

/-- C2 witness: concrete classifications through the theorem. -/
theorem tailer_status_classification_witness :
    classifyStatus "ROLLBACK_COMPLETE" = StatusClass.failure ∧
    classifyStatus "CREATE_COMPLETE" = StatusClass.success ∧
    classifyStatus "UPDATE_ROLLBACK_COMPLETE_CLEANUP_IN_PROGRESS" = StatusClass.inProgress :=
  ⟨(tailer_status_classification "ROLLBACK_COMPLETE").1.mpr (Or.inr (Or.inl rfl)),
   (tailer_status_classification "CREATE_COMPLETE").2.1.mpr (by decide),
   (tailer_status_classification "UPDATE_ROLLBACK_COMPLETE_CLEANUP_IN_PROGRESS").2.2.1.mpr
     (by decide)⟩

/-! ## The starting cursor, `update_stack`, `stack_exists` -/

/-- C3: `tail_stack_events(name, initial_entry)` starts the tailer at the
current event count when `initial_entry` is `None`, at
`current event count - k` when `initial_entry` is a negative integer `-k`,
and at exactly `initial_entry` when it is non-negative. -/
theorem tail_cursor_spec (current_event_count : Nat) (i k : Int) :
    (tail_stack_events current_event_count none = (current_event_count : Int)) ∧
    (0 < k → tail_stack_events current_event_count (some (-k)) =
      (current_event_count : Int) - k) ∧
    (0 ≤ i → tail_stack_events current_event_count (some i) = i) := by
  refine ⟨rfl, ?_, ?_⟩
  · intro hk
    simp only [tail_stack_events]
    rw [if_pos (by omega)]
    ring
  · intro hi
    simp only [tail_stack_events]
    rw [if_neg (by omega)]

/-- C3 witness: cursors for `None`, `-2` against 5 events, and explicit `4`. -/
theorem tail_cursor_spec_witness :
    tail_stack_events 5 none = 5 ∧
    tail_stack_events 5 (some (-2)) = 3 ∧
    tail_stack_events 5 (some 4) = 4 := by
  refine ⟨(tail_cursor_spec 5 4 2).1, ?_, ?_⟩
  · have h := (tail_cursor_spec 5 4 2).2.1 (by norm_num)
    rw [h]; norm_num
  · exact (tail_cursor_spec 5 4 2).2.2 (by norm_num)

/-- C7: `update_stack` returns `False` when the backend rejects with exactly
`'No updates are to be performed.'`, re-raises any other rejection as
`CloudformationException`, and returns `True` on acceptance. -/
theorem update_stack_spec :
    (∀ msg : String, msg = "No updates are to be performed." →
        update_stack (Except.error msg) = Except.ok false) ∧
    (∀ msg : String, msg ≠ "No updates are to be performed." →
        update_stack (Except.error msg) = Except.error { message := msg }) ∧
    update_stack (Except.ok ()) = Except.ok true := by
  refine ⟨?_, ?_, rfl⟩
  · intro msg h; simp [update_stack, h]
  · intro msg h; simp [update_stack, h]

/-- C7 witness: the benign no-op message and a genuine rejection. -/
theorem update_stack_spec_witness :
    update_stack (Except.error "No updates are to be performed.") = Except.ok false ∧
    update_stack (Except.error "boom") = Except.error { message := "boom" } :=
  ⟨update_stack_spec.1 _ rfl, update_stack_spec.2.1 "boom" (by decide)⟩

theorem contains_iff_mem {α : Type} [BEq α] [LawfulBEq α] {l : List α} {a : α} :
    l.contains a = true ↔ a ∈ l := by
  rw [List.contains_iff_exists_mem_beq]
  constructor
  · rintro ⟨b, hb, hbeq⟩
    rw [beq_iff_eq] at hbeq
    exact hbeq ▸ hb
  · intro h
    exact ⟨a, h, by simp⟩

/-- C9: `stack_exists` is true iff the name appears among stacks whose status
is in the full enumeration except `DELETE_COMPLETE`; a stack whose only
recorded status is `DELETE_COMPLETE` is reported as not existing. -/
theorem stack_exists_spec (backend : List StackSummary) (name : String) :
    (stack_exists backend name = true ↔
      ∃ st ∈ backend, st.StackName = name ∧ st.StackStatus ∈ VALID_STACK_STATUSES ∧
        st.StackStatus ≠ "DELETE_COMPLETE") ∧
    ((∀ st ∈ backend, st.StackName = name → st.StackStatus = "DELETE_COMPLETE") →
      stack_exists backend name = false) := by
  have hmain : stack_exists backend name = true ↔
      ∃ st ∈ backend, st.StackName = name ∧ st.StackStatus ∈ VALID_STACK_STATUSES ∧
        st.StackStatus ≠ "DELETE_COMPLETE" := by
    simp only [stack_exists, list_stacks, contains_iff_mem, List.mem_map, List.mem_filter]
    constructor
    · rintro ⟨st, ⟨hstm, hflt⟩, hname⟩
      exact ⟨st, hstm, hname, hflt.1, by simpa using hflt.2⟩
    · rintro ⟨st, hstm, hname, hval, hnd⟩
      exact ⟨st, ⟨hstm, hval, by simpa using hnd⟩, hname⟩
  refine ⟨hmain, fun h => ?_⟩
  rw [← Bool.not_eq_true, hmain]
  rintro ⟨st, hstm, hname, _, hnd⟩
  exact hnd (h st hstm hname)

/-- C9 witness: a stack recorded only as `DELETE_COMPLETE` does not exist; a
`CREATE_COMPLETE` one does. -/
theorem stack_exists_spec_witness :
    stack_exists [{ StackName := "s", StackStatus := "DELETE_COMPLETE" }] "s" = false ∧
    stack_exists [{ StackName := "s", StackStatus := "CREATE_COMPLETE" }] "s" = true :=
  ⟨(stack_exists_spec [{ StackName := "s", StackStatus := "DELETE_COMPLETE" }] "s").2
      (by intro st hst _; simp at hst; rw [hst]),
   (stack_exists_spec [{ StackName := "s", StackStatus := "CREATE_COMPLETE" }] "s").1.mpr
      ⟨{ StackName := "s", StackStatus := "CREATE_COMPLETE" }, by simp, rfl, by decide, by decide⟩⟩

/-! ## Parameter resolution theorems -/

/-- C4: each parameter resolves by the spec's rule — the declared default is
used iff the definition has one AND the key is not present in the datasource
collection; otherwise the recursively looked-up value is used, with a
sequence-valued result flattened to a comma-separated string of its elements'
string forms; every emitted pair passes key and final value through `str()`. -/
theorem resolve_parameters_follow_spec (tp : List (String × ParameterDefinition))
    (ds : DataSourceCollection) :
    resolve_template_parameters tp ds = resolveParamsSpec ds tp := by
  induction tp with
  | nil => rfl
  | cons p rest ih =>
    obtain ⟨k, pd⟩ := p
    simp only [resolve_template_parameters, resolveParamsSpec, ← ih]
    rcases hD : pd.Default with _ | d
    · simp only [resolveOneSpec, hD, Option.isSome_none, Bool.false_eq_true, false_and,
        if_false]
      rcases hl : ds.get_parameter_recursive k with e | v
      · rfl
      · rcases hr : resolve_template_parameters rest ds with e | params <;> rfl
    · rcases hc : ds.contains k
      · simp only [resolveOneSpec, hD, hc, Option.isSome_some, Option.getD_some, true_and,
          if_pos rfl]
        rcases hr : resolve_template_parameters rest ds with e | params <;> rfl
      · have hcond : ¬(pd.Default.isSome ∧ ds.contains k = false) := by
          rw [hD, hc]; simp
        simp only [resolveOneSpec, if_neg hcond, hD, hc]
        rcases hl : ds.get_parameter_recursive k with e | v
        · rfl
        · rcases hr : resolve_template_parameters rest ds with e | params <;> rfl

/-- If resolving the remaining definitions fails, resolving with one more
definition in front still fails (with the head's error or the tail's). -/
theorem resolve_cons_error (ds : DataSourceCollection) (k' : String)
    (pd' : ParameterDefinition) (rest : List (String × ParameterDefinition))
    (h : ∃ e, resolve_template_parameters rest ds = Except.error e) :
    ∃ e, resolve_template_parameters ((k', pd') :: rest) ds = Except.error e := by
  obtain ⟨e, he⟩ := h
  simp only [resolve_template_parameters, he]
  rcases hD : pd'.Default with _ | d
  · rcases hl : ds.get_parameter_recursive k' with e' | v
    · exact ⟨e', rfl⟩
    · exact ⟨e, rfl⟩
  · rcases hc : ds.contains k'
    · exact ⟨e, rfl⟩
    · rcases hl : ds.get_parameter_recursive k' with e' | v
      · exact ⟨e', rfl⟩
      · exact ⟨e, rfl⟩

/-- C5: a template containing a no-default parameter whose recursive lookup
raises makes the whole resolution fail with a `ParameterResolutionError`; no
partial parameter list is returned (the `Except.error` result carries none). -/
theorem required_missing_parameter_fails (tp : List (String × ParameterDefinition))
    (ds : DataSourceCollection) (k : String) (pd : ParameterDefinition)
    (hmem : (k, pd) ∈ tp) (hnodef : pd.Default = none)
    (habs : ∃ err, ds.get_parameter_recursive k = Except.error err) :
    ∃ e, resolve_template_parameters tp ds = Except.error e := by
  induction tp with
  | nil => cases hmem
  | cons p rest ih =>
    obtain ⟨k', pd'⟩ := p
    rcases List.mem_cons.mp hmem with heq | hmem'
    · injection heq with h1 h2
      subst h1; subst h2
      obtain ⟨err, herr⟩ := habs
      refine ⟨err, ?_⟩
      simp only [resolve_template_parameters, hnodef, herr]
    · by_cases htail : ∃ e, resolve_template_parameters rest ds = Except.error e
      · exact resolve_cons_error ds k' pd' rest htail
      · obtain ⟨e, he⟩ := ih hmem'
        exact absurd ⟨e, he⟩ htail

/-- A datasource with no values at any level: membership is always false and
every recursive lookup raises `ParameterResolutionError`. -/
def emptyDataSource : DataSourceCollection :=
  { contains := fun _ => false
    get_parameter_recursive := fun key =>
      Except.error { message := "parameter not found: " ++ key } }

/-- C5 witness: a single required parameter absent from an empty datasource. -/
theorem required_missing_parameter_fails_witness :
    ∃ e, resolve_template_parameters [("D", { Default := none })] emptyDataSource =
      Except.error e :=
  required_missing_parameter_fails [("D", { Default := none })] emptyDataSource
    "D" { Default := none } (by simp) rfl ⟨{ message := "parameter not found: D" }, rfl⟩

/-- C10: flattening applies only to looked-up values with an `__iter__`
attribute — a plain string is never comma-joined, a looked-up sequence is,
and a declared default is passed through `str()` directly so a
sequence-valued default keeps its bracketed string form. -/
theorem flatten_only_lookup_iterables :
    (∀ (k : String) (v : PyValue) (ds : DataSourceCollection),
        ds.contains k = false →
        resolve_template_parameters [(k, { Default := some v })] ds =
          Except.ok [(k, pyStr v)]) ∧
    (∀ (k : String) (ds : DataSourceCollection) (xs : List PyScalar),
        ds.get_parameter_recursive k = Except.ok (PyValue.list xs) →
        resolve_template_parameters [(k, { Default := none })] ds =
          Except.ok [(k, String.intercalate "," (xs.map pyScalarStr))]) ∧
    (∀ (k s : String) (ds : DataSourceCollection),
        ds.get_parameter_recursive k = Except.ok (PyValue.scalar (PyScalar.str s)) →
        resolve_template_parameters [(k, { Default := none })] ds =
          Except.ok [(k, s)]) ∧
    (∀ s : String, hasIterAttr (PyValue.scalar (PyScalar.str s)) = false) ∧
    pyStr (PyValue.list [PyScalar.str "a", PyScalar.str "b"]) = "['a', 'b']" ∧
    pyJoinComma (PyValue.list [PyScalar.str "a", PyScalar.str "b"]) = "a,b" := by
  refine ⟨?_, ?_, ?_, fun s => rfl, rfl, rfl⟩
  · intro k v ds hc
    simp only [resolve_template_parameters, hc]
    rfl
  · intro k ds xs hl
    simp only [resolve_template_parameters, hl]
    rfl
  · intro k s ds hl
    simp only [resolve_template_parameters, hl]
    rfl

/-- C10 witness: against an empty datasource a list-valued default resolves
to its bracketed string form, not a comma-join. -/
theorem flatten_only_lookup_iterables_witness :
    resolve_template_parameters
        [("K", { Default := some (PyValue.list [PyScalar.str "a", PyScalar.str "b"]) })]
        emptyDataSource =
      Except.ok [("K", "['a', 'b']")] :=
  flatten_only_lookup_iterables.1 "K" (PyValue.list [PyScalar.str "a", PyScalar.str "b"])
    emptyDataSource rfl

/-! ## Event tailer theorems -/

theorem take_min_length {α : Type} (l : List α) (n : Nat) :
    l.take (min n l.length) = l.take n := by
  rcases Nat.le_total n l.length with h | h
  · rw [Nat.min_eq_left h]
  · rw [Nat.min_eq_right h, List.take_length, List.take_of_length_le h]

theorem reverse_take_reverse_eq_drop {α : Type} (l : List α) (k : Nat) :
    (l.reverse.take k).reverse = l.drop (l.length - k) := by
  rw [← List.rtake_eq_reverse_take_reverse]
  simp [List.rtake]

theorem take_drop_splice {α : Type} (l : List α) (p q N : Nat) (hpq : p ≤ q) (hqN : q ≤ N) :
    (l.take q).drop p ++ (l.take N).drop q = (l.take N).drop p := by
  have h1 : l.take q = (l.take N).take q := by
    rw [List.take_take, Nat.min_eq_left hqN]
  rw [h1]
  have h2 : ((l.take N).take q).drop p = ((l.take N).drop p).take (q - p) := by
    rw [List.take_drop, Nat.add_sub_cancel' hpq]
  have h3 : (l.take N).drop q = ((l.take N).drop p).drop (q - p) := by
    rw [List.drop_drop, Nat.add_sub_cancel' hpq]
  rw [h2, h3, List.take_append_drop]

theorem nextCursor_ge (hist : List StackEvent) (prev n : Nat) :
    prev ≤ nextCursor hist prev n := by
  unfold nextCursor
  split <;> omega

/-- The emitted slice is exactly the events of the chronological history
between the old cursor and the new one, oldest first. -/
theorem tailEmit_eq (hist : List StackEvent) (prev n : Nat) :
    tailEmit hist prev n =
      ((hist.take (nextCursor hist prev n)).drop prev).map TailItem.event := by
  unfold tailEmit nextCursor stack_events_view eventItem
  simp only [List.length_reverse]
  by_cases h : (hist.take n).length > prev
  · rw [if_pos h, if_pos h]
    have h2 : ((hist.take n).reverse.take ((hist.take n).length - prev)).reverse
        = (hist.take n).drop prev := by
      rw [reverse_take_reverse_eq_drop]
      congr 1
      omega
    rw [h2]
    have h3 : hist.take ((hist.take n).length) = hist.take n := by
      rw [List.length_take, take_min_length]
    rw [h3]
  · rw [if_neg h, if_neg h]
    have h4 : (hist.take prev).drop prev = [] := by
      apply List.drop_eq_nil_of_le
      rw [List.length_take]
      omega
    rw [h4]
    rfl

/-- The cursor value the loop holds after its last executed poll cycle. -/
def tailFinalCursor (hist : List StackEvent) (prev : Nat) : List (String × Nat) → Nat
  | [] => prev
  | (s, n) :: rest =>
    match classifyStatus s with
    | StatusClass.inProgress => tailFinalCursor hist (nextCursor hist prev n) rest
    | _ => nextCursor hist prev n

/-- C1: over any finite poll trace against the append-only newest-first
backend, the tailer yields exactly the events of the history between the
starting cursor and the final cursor, each exactly once, oldest first, before
any terminal marker; at most one terminal marker is yielded and it is the
last item; and the cursor is monotonically non-decreasing across poll cycles,
ending at the final cursor. -/
theorem tail_events_exactly_once (hist : List StackEvent) (c0 : Nat)
    (polls : List (String × Nat)) :
    ∃ term : List TailItem,
      c0 ≤ tailFinalCursor hist c0 polls ∧
      tailRun hist c0 polls =
        ((hist.take (tailFinalCursor hist c0 polls)).drop c0).map TailItem.event ++ term ∧
      (term = [] ∨ ∃ s, (classifyStatus s = StatusClass.failure ∧ term = [TailItem.fail s]) ∨
        (classifyStatus s = StatusClass.success ∧ term = [TailItem.success s])) ∧
      List.Chain' (· ≤ ·) (c0 :: tailCursors hist c0 polls) ∧
      (c0 :: tailCursors hist c0 polls).getLast (List.cons_ne_nil c0 _) =
        tailFinalCursor hist c0 polls := by
  induction polls generalizing c0 with
  | nil =>
    refine ⟨[], Nat.le_refl c0, ?_, Or.inl rfl, ?_, rfl⟩
    · have hnil : (hist.take c0).drop c0 = [] := by
        apply List.drop_eq_nil_of_le
        rw [List.length_take]
        omega
      simp [tailRun, tailRunE, tailFinalCursor, tailCursors, hnil]
    · simp [tailCursors]
  | cons p rest ih =>
    obtain ⟨s, n⟩ := p
    cases hcl : classifyStatus s with
    | inProgress =>
      obtain ⟨term, h1, h2, h3, h4, h5⟩ := ih (nextCursor hist c0 n)
      have hfc : tailFinalCursor hist c0 ((s, n) :: rest) =
          tailFinalCursor hist (nextCursor hist c0 n) rest := by
        simp only [tailFinalCursor, hcl]
      have hcs : tailCursors hist c0 ((s, n) :: rest) =
          nextCursor hist c0 n :: tailCursors hist (nextCursor hist c0 n) rest := by
        simp only [tailCursors, hcl]
      refine ⟨term, ?_, ?_, h3, ?_, ?_⟩
      · rw [hfc]
        exact Nat.le_trans (nextCursor_ge hist c0 n) h1
      · rw [tailRun_cons_inProgress hist c0 s n rest hcl, tailEmit_eq, h2, hfc,
          ← List.append_assoc, ← List.map_append,
          take_drop_splice hist c0 (nextCursor hist c0 n)
            (tailFinalCursor hist (nextCursor hist c0 n) rest) (nextCursor_ge hist c0 n) h1]
      · rw [hcs, List.chain'_cons]
        exact ⟨nextCursor_ge hist c0 n, h4⟩
      · rw [hfc]
        conv =>
          lhs
          rw [hcs, List.getLast_cons (List.cons_ne_nil _ _)]
        exact h5
    | success =>
      have hrun : tailRun hist c0 ((s, n) :: rest) =
          tailEmit hist c0 n ++ [TailItem.success s] := by
        simp only [tailRun, List.map_cons, tailRunE_cons_ok, hcl]
      have hfc : tailFinalCursor hist c0 ((s, n) :: rest) = nextCursor hist c0 n := by
        simp only [tailFinalCursor, hcl]
      have hcs : tailCursors hist c0 ((s, n) :: rest) = [nextCursor hist c0 n] := by
        simp only [tailCursors, hcl]
      refine ⟨[TailItem.success s], ?_, ?_, Or.inr ⟨s, Or.inr ⟨hcl, rfl⟩⟩, ?_, ?_⟩
      · rw [hfc]
        exact nextCursor_ge hist c0 n
      · rw [hrun, tailEmit_eq, hfc]
      · rw [hcs, List.chain'_cons]
        exact ⟨nextCursor_ge hist c0 n, List.chain'_singleton _⟩
      · rw [hfc, hcs, List.getLast_cons (List.cons_ne_nil _ _)]
        rfl
    | failure =>
      have hrun : tailRun hist c0 ((s, n) :: rest) =
          tailEmit hist c0 n ++ [TailItem.fail s] := by
        simp only [tailRun, List.map_cons, tailRunE_cons_ok, hcl]
      have hfc : tailFinalCursor hist c0 ((s, n) :: rest) = nextCursor hist c0 n := by
        simp only [tailFinalCursor, hcl]
      have hcs : tailCursors hist c0 ((s, n) :: rest) = [nextCursor hist c0 n] := by
        simp only [tailCursors, hcl]
      refine ⟨[TailItem.fail s], ?_, ?_, Or.inr ⟨s, Or.inl ⟨hcl, rfl⟩⟩, ?_, ?_⟩
      · rw [hfc]
        exact nextCursor_ge hist c0 n
      · rw [hrun, tailEmit_eq, hfc]
      · rw [hcs, List.chain'_cons]
        exact ⟨nextCursor_ge hist c0 n, List.chain'_singleton _⟩
      · rw [hfc, hcs, List.getLast_cons (List.cons_ne_nil _ _)]
        rfl

/-! ## Backend errors inside the tailing loop -/

/-- C8 counterexample: a backend error in the `describe_stacks` read of a
poll cycle (source line 210, outside any try/except) escapes as the raw
backend `ClientError`, not as the repository's `CloudformationException`. -/
theorem tail_poll_error_counterexample :
    tailRunE [] 0
        [{ describe_stacks := Except.error "boom", events_read := Except.ok 0 }] =
      ([], some (PyError.clientError "boom")) ∧
    isCFException (PyError.clientError "boom") = false :=
  ⟨rfl, rfl⟩

/-- C8 (amended): a backend error during a poll cycle ends the tailing
sequence at once — the consumer receives the events of the preceding
successful polls and then the exception, and the remaining polls are never
consulted (no catch, no retry).  An error from the list-events read
propagates wrapped as `CloudformationException`; an error from the
describe-stack read propagates unwrapped as the backend `ClientError`. -/
theorem tail_poll_error_spec (hist : List StackEvent) (c0 : Nat)
    (good : List (String × Nat))
    (hgood : ∀ p ∈ good, classifyStatus p.1 = StatusClass.inProgress) :
    (∀ (msg : String) (evR : Except String Nat) (rest : List PollResult),
      tailRunE hist c0 (good.map okPoll ++
          ({ describe_stacks := Except.error msg, events_read := evR } :: rest)) =
        (tailRun hist c0 good, some (PyError.clientError msg))) ∧
    (∀ (st msg : String) (rest : List PollResult),
      tailRunE hist c0 (good.map okPoll ++
          ({ describe_stacks := Except.ok st, events_read := Except.error msg } :: rest)) =
        (tailRun hist c0 good, some (PyError.cloudformationException msg))) := by
  induction good generalizing c0 with
  | nil => exact ⟨fun msg evR rest => rfl, fun st msg rest => rfl⟩
  | cons p good' ih =>
    obtain ⟨s, n⟩ := p
    have hcl : classifyStatus s = StatusClass.inProgress :=
      hgood (s, n) (List.mem_cons_self _ _)
    have hgood' : ∀ q ∈ good', classifyStatus q.1 = StatusClass.inProgress :=
      fun q hq => hgood q (List.mem_cons_of_mem _ hq)
    obtain ⟨ih1, ih2⟩ := ih (nextCursor hist c0 n) hgood'
    constructor
    · intro msg evR rest
      rw [List.map_cons, List.cons_append, tailRunE_cons_ok, hcl, ih1 msg evR rest,
        tailRun_cons_inProgress hist c0 s n good' hcl]
    · intro st msg rest
      rw [List.map_cons, List.cons_append, tailRunE_cons_ok, hcl, ih2 st msg rest,
        tailRun_cons_inProgress hist c0 s n good' hcl]

/-- C8 witness: one successful in-progress poll, then a failing list-events
read, against an empty history. -/
theorem tail_poll_error_spec_witness :
    tailRunE [] 0 ([("CREATE_IN_PROGRESS", 0)].map okPoll ++
        ({ describe_stacks := Except.ok "CREATE_IN_PROGRESS",
           events_read := Except.error "oops" } :: [])) =
      (tailRun [] 0 [("CREATE_IN_PROGRESS", 0)],
       some (PyError.cloudformationException "oops")) :=
  (tail_poll_error_spec [] 0 [("CREATE_IN_PROGRESS", 0)] (by decide)).2
    "CREATE_IN_PROGRESS" "oops" []

end Rainbow
